import Mathlib

/-!
Verification development for the RCA radiology workflow tracker.

The definitions below are a shallow embedding of the repository's code:
the client (`src/js/app.js`) role table, router, patient login, optimistic
visit creation and study workflow actions, and the spreadsheet backend
(`src/gas/Code.gs`) row-store operations.  Fallible operations return
explicit result values; machine randomness and wall-clock time are passed
in as explicit parameters.
-/

namespace RCA

/-! ### Role-based access control (src/js/app.js, App.rbac, lines 156-198) -/

/-- The static permission table `App.rbac.permissions`: role name to the
ordered list of allowed view names (app.js lines 157-163).  `none` models a
role that is absent from the table. -/
def permTable : String → Option (List String)
  | "Reception" => some ["reception"]
  | "Technician" => some ["technician"]
  | "Radiologist" => some ["reception", "technician", "radiologist"]
  | "Admin" => some ["reception", "technician", "radiologist", "admin"]
  | "Patient" => some ["patient-portal"]
  | _ => none

/-- The roles that appear in the permission table (the role enumeration of
the data model). -/
def definedRoles : List String :=
  ["Reception", "Technician", "Radiologist", "Admin", "Patient"]

/-- `App.rbac.getAllowedPages` (app.js lines 175-177): the table entry, or
the empty list for an unknown role (`permissions[role] || []`). -/
def getAllowedPages (role : String) : List String :=
  (permTable role).getD []

/-- `App.rbac.canAccess` (app.js lines 165-168): membership test in the
allowed-page list. -/
def canAccess (role page : String) : Bool :=
  (getAllowedPages role).contains page

/-- `App.rbac.getDefaultPage` (app.js lines 170-173): first entry of
`permissions[role] || ['reception']`.  Every list involved is non-empty, so
the `headD` default is never used. -/
def getDefaultPage (role : String) : String :=
  ((permTable role).getD ["reception"]).headD ""

/-- The action permission table inside `App.rbac.hasPermission`
(app.js lines 184-193). -/
def actionPermissions : String → List String
  | "createVisit" => ["Reception", "Admin"]
  | "createPatient" => ["Reception", "Admin"]
  | "startScan" => ["Technician", "Admin"]
  | "completeScan" => ["Technician", "Admin"]
  | "writeReport" => ["Radiologist", "Admin"]
  | "markComplete" => ["Radiologist", "Admin"]
  | "manageUsers" => ["Admin"]
  | "viewAllPatients" => ["Radiologist", "Admin"]
  | _ => []

/-- `App.rbac.hasPermission` (app.js lines 179-197) evaluated for a session
with role `role` (a `null` user yields `false`, modelled by the caller
passing no role). -/
def hasPermission (role action : String) : Bool :=
  (actionPermissions action).contains role

/-! ### Router (src/js/app.js, App.router.navigate, lines 211-259) -/

/-- Observable outcome of a `navigate` call.  `loginShown` is the forced
login view, `rendered p` means view `p` was rendered, `noRender` is the
early return when access is denied and the requested page already equals
the role's default page, and `fuelOut` marks recursion-budget exhaustion
(used only to reason about termination; it is proved unreachable with
budget 2). -/
inductive NavResult where
  | loginShown : NavResult
  | rendered : String → NavResult
  | noRender : NavResult
  | fuelOut : NavResult
deriving DecidableEq

/-- `App.router.navigate` (app.js lines 211-259) as a fuel-indexed
function.  `user` is the session role (`none` when `App.state.user` is
null).  The source recurses on the role's default page when access is
denied and the requested page differs from that default. -/
def navigate : Nat → Option String → String → NavResult
  | 0, _, _ => .fuelOut
  | _ + 1, none, _ => .loginShown
  | fuel + 1, some role, page =>
    if canAccess role page then .rendered page
    else if page = getDefaultPage role then .noRender
    else navigate fuel (some role) (getDefaultPage role)

/-! ### Patient login (src/js/app.js, App.controllers.auth.login, lines 381-424) -/

/-- The patient fields used by the patient login branch. -/
structure Patient where
  id : String
  full_name : String
  phone : String
deriving DecidableEq

/-- The synthesized patient session object (app.js lines 400-405). -/
structure PatientSession where
  id : String
  full_name : String
  role : String
  phone : String
deriving DecidableEq

/-- Outcome of the patient login branch: the three alert paths and the
success path carrying the session stored into `App.state.user`. -/
inductive LoginResult where
  | missingInput : LoginResult
  | notFound : LoginResult
  | invalidPasscode : LoginResult
  | success : PatientSession → LoginResult
deriving DecidableEq

/-- Models `String.prototype.toUpperCase` for the ASCII data this
application handles. -/
def jsToUpper (s : String) : String :=
  ⟨s.data.map Char.toUpper⟩

/-- Models `String.prototype.trim`: strip leading and trailing
whitespace. -/
def jsTrim (s : String) : String :=
  ⟨((s.data.dropWhile Char.isWhitespace).reverse.dropWhile Char.isWhitespace).reverse⟩

/-- The patient branch of `App.controllers.auth.login` (app.js lines
381-424): trim both inputs, look the patient up by exact phone match, and
compare the upper-cased entered passcode against the upper-cased first
three letters of the patient's full name concatenated with the phone
number. -/
def patientLogin (patients : List Patient) (phoneRaw passRaw : String) : LoginResult :=
  let phone := jsTrim phoneRaw
  let pass := jsTrim passRaw
  if phone = "" || pass = "" then .missingInput
  else
    match patients.find? (fun p => p.phone == phone) with
    | none => .notFound
    | some p =>
      let namePart := jsToUpper (p.full_name.take 3)
      let expectedPass := namePart ++ phone
      if jsToUpper pass = expectedPass then
        .success { id := p.id, full_name := p.full_name, role := "Patient", phone := p.phone }
      else .invalidPasscode

/-- `App.state.user` after the login attempt: it is overwritten only on
the success path (app.js line 407); every failure path only raises an
alert. -/
def userAfterLogin (prev : Option PatientSession) : LoginResult → Option PatientSession
  | .success u => some u
  | _ => prev

/-! ### Study workflow actions (src/js/app.js)

The status-mutating actions reachable from the rendered views, together
with the conditions under which the corresponding buttons are rendered:

* `startScan` / `completeScan` buttons on the technician study card appear
  only for status `Waiting` resp. `Scanning` (app.js lines 2103-2104); the
  handlers set the status to `Scanning` resp. `Reporting`
  (lines 1168, 1182) and require the `startScan` / `completeScan` action
  permission (lines 1161, 1176).
* the radiologist worklist shows a study only when its status is in
  `Reporting`/`Reported` (reporting tab) or is `Completed` (completed
  tab) (lines 1429-1431); opening its editor shows, for the assigned
  doctor, a Mark Complete button unless the status is already `Completed`
  (line 1561), and a Sign and Print button unconditionally (line 1566).
* `markComplete` sets the status to `Completed` (line 1723) and requires
  the `markComplete` permission (line 1714); Sign and Print
  (`printReport`, line 1784) issues `API.saveReport`, whose backend
  handler stores `status = 'Reported'` on the study row
  (src/gas/Code.gs lines 124-129). -/

/-- The slice of a study relevant to the workflow state machine. -/
structure StudyState where
  status : String
  assigned_doctor_id : String
deriving DecidableEq

/-- The four status-affecting actions named by the workflow. -/
inductive Action where
  | startScan : Action
  | completeScan : Action
  | markComplete : Action
  | signAndPrint : Action
deriving DecidableEq

/-- A study row is listed in the radiologist worklist for some tab
(app.js lines 1429-1431). -/
def radiologistListed (s : StudyState) : Bool :=
  s.status == "Reporting" || s.status == "Reported" || s.status == "Completed"

/-- An action is exposed in the rendered UI for a session with role
`role` and user id `uid` on study `s`: the corresponding button is
rendered and the controller's permission check passes. -/
def exposed (role uid : String) (s : StudyState) : Action → Bool
  | .startScan => hasPermission role "startScan" && s.status == "Waiting"
  | .completeScan => hasPermission role "completeScan" && s.status == "Scanning"
  | .markComplete =>
      hasPermission role "markComplete" && radiologistListed s &&
        s.assigned_doctor_id == uid && !(s.status == "Completed")
  | .signAndPrint => radiologistListed s && s.assigned_doctor_id == uid

/-- The status each action stores for the study: the optimistic client
writes for the first three actions (app.js lines 1168, 1182, 1723), and
the backend `saveReport` write for Sign and Print
(src/gas/Code.gs lines 124-129). -/
def actionStatus : Action → String
  | .startScan => "Scanning"
  | .completeScan => "Reporting"
  | .markComplete => "Completed"
  | .signAndPrint => "Reported"

/-- Effect of one action on the study slice. -/
def applyAction (a : Action) (s : StudyState) : StudyState :=
  { s with status := actionStatus a }

/-- Effect of a sequence of actions on the study slice. -/
def runActions (acts : List Action) (s : StudyState) : StudyState :=
  acts.foldl (fun t a => applyAction a t) s

/-- Position of a status along the documented chain
Waiting, Scanning, Reporting, Reported, Completed; unknown statuses are
mapped past the end. -/
def statusRank : String → Nat
  | "Waiting" => 0
  | "Scanning" => 1
  | "Reporting" => 2
  | "Reported" => 3
  | "Completed" => 4
  | _ => 5

/-! ### Optimistic visit creation (src/js/app.js, saveVisit, lines 920-984) -/

/-- The visit entity synthesized by `saveVisit` (app.js lines 936-944). -/
structure Visit where
  id : String
  patient_id : String
  referrer_doctor : String
  check_in_time : String
  assigned_doctor_id : String
  status : String
  created_at : String
deriving DecidableEq

/-- The study entity synthesized by `saveVisit` (app.js lines 949-959). -/
structure Study where
  id : String
  visit_id : String
  modality : String
  region : String
  study_name : String
  assigned_doctor_id : String
  price : Nat
  status : String
  created_at : String
deriving DecidableEq

/-- An entry of the reception `tempQueue` (app.js line 870 area): the
study request captured before saving. -/
structure QueueItem where
  modality : String
  region : String
  study_name : String
deriving DecidableEq

/-- The slice of `App.state` mutated by `saveVisit`. -/
structure RState where
  visits : List Visit
  studies : List Study
deriving DecidableEq

/-- `App.helpers.generateId` (app.js lines 2166-2168):
`prefix + '-' + Date.now() + '-' + Math.floor(Math.random()*1000)`.  The
wall clock and the random draw are explicit arguments. -/
def generateId (pfx : String) (now rand : Nat) : String :=
  pfx ++ "-" ++ Nat.repr now ++ "-" ++ Nat.repr rand

/-- The visit entity synthesized locally by `saveVisit` (app.js lines
936-944); `env 0` is the `(Date.now(), random)` pair of the id draw. -/
def visitData (env : Nat → Nat × Nat) (patientId doctorId checkIn nowIso : String) : Visit :=
  { id := generateId "VS" (env 0).1 (env 0).2, patient_id := patientId,
    referrer_doctor := "", check_in_time := checkIn, assigned_doctor_id := doctorId,
    status := "In Progress", created_at := nowIso }

/-- One element of the `newStudies` map of `saveVisit` (app.js lines
949-959): the k-th queued study inherits the doctor, gets status
Waiting, links to the visit id (draw 0) and receives the id of draw
k+1. -/
def studyData (env : Nat → Nat × Nat) (doctorId nowIso : String) (qk : QueueItem × Nat) :
    Study :=
  { id := generateId "ST" (env (qk.2 + 1)).1 (env (qk.2 + 1)).2,
    visit_id := generateId "VS" (env 0).1 (env 0).2, modality := qk.1.modality,
    region := qk.1.region, study_name := qk.1.study_name,
    assigned_doctor_id := doctorId, price := 0, status := "Waiting",
    created_at := nowIso }

/-- `App.controllers.reception.saveVisit` (app.js lines 920-984), up to
the point where the background `API` calls are issued.  `env k` provides
the `(Date.now(), random)` pair consumed by the k-th `generateId` call
(call 0 creates the visit id, call k+1 the id of the k-th queued study).
The guard clauses (missing permission, no patient, no doctor, empty
queue) return the state unchanged, modelling the alert-and-return paths
(lines 922-931). -/
def saveVisit (env : Nat → Nat × Nat) (role : String) (patientId doctorId checkIn nowIso : String)
    (queue : List QueueItem) (st : RState) : RState :=
  if !hasPermission role "createVisit" then st
  else if patientId = "" then st
  else if doctorId = "" then st
  else if queue = [] then st
  else
    { visits := st.visits ++ [visitData env patientId doctorId checkIn nowIso],
      studies := st.studies
        ++ (queue.zip (List.range queue.length)).map (studyData env doctorId nowIso) }

/-! ### Backend row store (src/gas/Code.gs) -/

/-- A spreadsheet sheet: the header row and the data rows below it, as
returned by `getDataRange().getValues()` (cells are modelled as the
strings this application stores). -/
structure Sheet where
  headers : List String
  rows : List (List String)
deriving DecidableEq

/-- The JSON response shapes produced by Code.gs: a `status` field, an
optional `message` (present exactly on error responses) and an optional
`data.id` (present on `createRow` responses). -/
structure ApiResponse where
  status : String
  message : Option String
  dataId : Option String
deriving DecidableEq

/-- Success response without payload (`{ status: 'success' }`). -/
def okResponse : ApiResponse := { status := "success", message := none, dataId := none }

/-- The `{ status: 'error', message: 'ID not found' }` response of
`updateRow` / `deleteRow` (Code.gs lines 239, 266). -/
def notFoundResponse : ApiResponse :=
  { status := "error", message := some "ID not found", dataId := none }

/-- A create/update payload: a finite map from field name to value.
`none` models an absent property; JavaScript's falsiness test on `id` and
`created_at` additionally treats the empty string as absent. -/
def Payload : Type := String → Option String

/-- JavaScript truthiness of an optional string property, as used by
`if (!data.id)` and `if (!data.created_at)` (Code.gs lines 210, 214). -/
def truthy : Option String → Bool
  | some s => s != ""
  | none => false

/-- `createRow(sheetName, data, prefix)` (Code.gs lines 204-223): assign
`prefix + '-' + rand` when the payload has no (truthy) id, stamp `nowTs`
when it has no (truthy) `created_at`, and append one row whose cells
follow the current header order, absent fields becoming the empty string
(`headers.map(h => data[h] || '')`).  `rand` models
`Math.floor(Math.random() * 100000)`. -/
def createRow (sheet : Sheet) (data : Payload) (pfx : String) (rand : Nat) (nowTs : String) :
    Sheet × ApiResponse :=
  let theId := if truthy (data "id") then (data "id").getD "" else pfx ++ "-" ++ Nat.repr rand
  let data2 : Payload := fun k =>
    if k = "id" then some theId
    else if k = "created_at" then (if truthy (data "created_at") then data k else some nowTs)
    else data k
  let row := sheet.headers.map fun h => (data2 h).getD ""
  (⟨sheet.headers, sheet.rows ++ [row]⟩,
   { status := "success", message := none, dataId := some theId })

/-- First data-row index whose first column equals the id, the linear
scan of Code.gs lines 231-237 (`String(data[i][0]) === String(id)`,
starting from the row below the header). -/
def findRowIdx (rows : List (List String)) (id : String) : Option Nat :=
  rows.findIdx? fun r => r.headD "" == id

/-- `headers.indexOf(key)` (Code.gs line 246): index of the first header
cell equal to the key, if any. -/
def headerIndex (headers : List String) (k : String) : Option Nat :=
  headers.findIdx? fun h => h == k

/-- One `setValue` step of the update loop (Code.gs lines 245-250): keys
without a matching header are skipped, others overwrite the cell at the
first matching header's column. -/
def setField (headers : List String) (row : List String) (kv : String × String) : List String :=
  match headerIndex headers kv.1 with
  | none => row
  | some c => row.set c kv.2

/-- `updateRow(sheetName, id, updates)` (Code.gs lines 225-253): locate
the first data row whose first column equals the id (error response and
unchanged sheet when there is none), then overwrite, key by key, the
columns named by the update map. -/
def updateRow (sheet : Sheet) (id : String) (updates : List (String × String)) :
    Sheet × ApiResponse :=
  match findRowIdx sheet.rows id with
  | none => (sheet, notFoundResponse)
  | some j =>
    let newRow := updates.foldl (setField sheet.headers) (sheet.rows.getD j [])
    (⟨sheet.headers, sheet.rows.set j newRow⟩, okResponse)

/-- `deleteRow(sheetName, id)` (Code.gs lines 255-267): delete the first
data row whose first column equals the id, or report the id missing. -/
def deleteRow (sheet : Sheet) (id : String) : Sheet × ApiResponse :=
  match findRowIdx sheet.rows id with
  | none => (sheet, notFoundResponse)
  | some j => (⟨sheet.headers, sheet.rows.eraseIdx j⟩, okResponse)

/-- The `updateStudyStatus` case of `handleRequest` (Code.gs lines
120-123): `updateRow('Studies', payload.id, { status: payload.status })`
applied to the Studies sheet. -/
def updateStudyStatus (studies : Sheet) (id status : String) : Sheet × ApiResponse :=
  updateRow studies id [("status", status)]

/-- The row-to-object loop of `getSheetData` (Code.gs lines 195-198):
`obj[headers[c]] = rows[i][c]` for ascending `c`, so for duplicate header
names the last column wins.  `getValues()` yields a rectangular range, so
a short stored row is padded with empty cells. -/
def lookupLast : List (String × String) → String → Option String
  | [], _ => none
  | (h, v) :: rest, k =>
    match lookupLast rest k with
    | some w => some w
    | none => if h = k then some v else none

/-- The object built for one data row by `getSheetData`. -/
def rowObject (headers row : List String) (k : String) : Option String :=
  lookupLast (headers.zip (row ++ List.replicate (headers.length - row.length) "")) k

/-- `getSheetData` (Code.gs lines 187-202): one object per data row,
keyed by the header names. -/
def getSheetData (sheet : Sheet) : List (String → Option String) :=
  sheet.rows.map (rowObject sheet.headers)

/-! ## Router lemmas -/

/-- At the role's default page, `navigate` never recurses: it either
renders the default page or returns without rendering. -/
theorem navigate_default_page (f : Nat) (role : String) :
    navigate (f + 1) (some role) (getDefaultPage role) =
      if canAccess role (getDefaultPage role) then
        NavResult.rendered (getDefaultPage role)
      else NavResult.noRender := by
  by_cases h : canAccess role (getDefaultPage role) = true
  · simp [navigate, h]
  · simp [navigate, h]

/-- Full characterization of `navigate` with recursion budget two: one
redirect at most ever happens. -/
theorem navigate_spec (f : Nat) (role page : String) :
    navigate (f + 2) (some role) page =
      if canAccess role page then NavResult.rendered page
      else if page = getDefaultPage role then NavResult.noRender
      else if canAccess role (getDefaultPage role) then
        NavResult.rendered (getDefaultPage role)
      else NavResult.noRender := by
  by_cases h1 : canAccess role page = true
  · simp [navigate, h1]
  · by_cases h2 : page = getDefaultPage role
    · simp [navigate, h1, h2]
    · have hstep : navigate (f + 2) (some role) page
          = navigate (f + 1) (some role) (getDefaultPage role) := by
        simp [navigate, h1, h2]
      rw [hstep, navigate_default_page]
      simp [h1, h2]

/-! ## Claim theorems: RBAC and router -/

/-- C2: for every role of the data model's role enumeration,
`canAccess role (getDefaultPage role)` is true and `getDefaultPage role`
is a member of `getAllowedPages role`. -/
theorem rbac_default_page_accessible (role : String) (h : role ∈ definedRoles) :
    canAccess role (getDefaultPage role) = true ∧
      getDefaultPage role ∈ getAllowedPages role := by
  simp only [definedRoles, List.mem_cons, List.not_mem_nil, or_false] at h
  rcases h with rfl | rfl | rfl | rfl | rfl <;> decide

/-- Witness for C2 at the role Technician. -/
theorem rbac_default_page_accessible_witness :
    canAccess "Technician" (getDefaultPage "Technician") = true ∧
      getDefaultPage "Technician" ∈ getAllowedPages "Technician" :=
  rbac_default_page_accessible "Technician" (by decide)

/-- C3: with no session, `navigate` shows the login view; when the role
may not access the requested page, that page is not rendered and the call
behaves exactly like a navigation to the role's default page; when the
denied page already is the default, nothing is rendered (no second
redirect); a Technician asking for the admin view gets the technician
view rendered instead. -/
theorem navigate_guard (role page : String) :
    navigate 2 none page = NavResult.loginShown
    ∧ (canAccess role page = false → page ≠ getDefaultPage role →
        navigate 2 (some role) page ≠ NavResult.rendered page
        ∧ navigate 2 (some role) page = navigate 2 (some role) (getDefaultPage role))
    ∧ (canAccess role page = false → page = getDefaultPage role →
        navigate 2 (some role) page = NavResult.noRender)
    ∧ navigate 2 (some "Technician") "admin" = NavResult.rendered "technician" := by
  refine ⟨rfl, ?_, ?_, by decide⟩
  · intro h1 h2
    have e := navigate_spec 0 role page
    have e2 := navigate_spec 0 role (getDefaultPage role)
    rw [h1] at e
    simp only [Bool.false_eq_true, if_false, if_neg h2] at e
    simp only [if_pos rfl] at e2
    constructor
    · rw [e]
      by_cases h3 : canAccess role (getDefaultPage role) = true
      · simp only [h3, if_true]
        intro hcon
        exact h2 (NavResult.rendered.inj hcon).symm
      · simp only [h3, Bool.false_eq_true, if_false]
        intro hcon
        exact NavResult.noConfusion hcon
    · rw [e, e2]
      by_cases h3 : canAccess role (getDefaultPage role) = true <;> simp [h3]
  · intro h1 h2
    have e := navigate_spec 0 role page
    rw [h1] at e
    simp only [Bool.false_eq_true, if_false, if_pos h2] at e
    exact e

/-- Witness for C3: a Technician requesting the admin page. -/
theorem navigate_guard_witness :
    navigate 2 (some "Technician") "admin" ≠ NavResult.rendered "admin"
    ∧ navigate 2 (some "Technician") "admin"
        = navigate 2 (some "Technician") (getDefaultPage "Technician") :=
  (navigate_guard "Technician" "admin").2.1 (by decide) (by decide)

/-- C10 counterexample: the role Technician can access neither the page
"dashboard" nor the page "reception", yet navigating to "dashboard"
renders the technician view, so such a session does not end with no page
rendered. -/
theorem navigate_unknown_cx :
    canAccess "Technician" "dashboard" = false
    ∧ canAccess "Technician" "reception" = false
    ∧ navigate 2 (some "Technician") "dashboard" = NavResult.rendered "technician" := by
  decide

/-- C10 amended: `navigate` with recursion budget two never exhausts the
budget and is unchanged by any larger budget (so the recursion performs
at most one redirect); `getDefaultPage` falls back to "reception" for a
role absent from the permission table, and a session with such a role
always ends with no page rendered. -/
theorem navigate_terminates (role page : String) :
    navigate 2 (some role) page ≠ NavResult.fuelOut
    ∧ (∀ n, navigate (n + 2) (some role) page = navigate 2 (some role) page)
    ∧ (permTable role = none →
        getDefaultPage role = "reception"
        ∧ navigate 2 (some role) page = NavResult.noRender) := by
  refine ⟨?_, ?_, ?_⟩
  · rw [show (2 : Nat) = 0 + 2 from rfl, navigate_spec 0]
    split_ifs <;> intro hcon <;> exact NavResult.noConfusion hcon
  · intro n
    rw [navigate_spec n, show (2 : Nat) = 0 + 2 from rfl, navigate_spec 0]
  · intro h
    have hca : ∀ q, canAccess role q = false := by
      intro q
      simp [canAccess, getAllowedPages, h]
    refine ⟨by simp [getDefaultPage, h], ?_⟩
    rw [show (2 : Nat) = 0 + 2 from rfl, navigate_spec 0, hca, hca]
    simp

/-- Witness for C10 at the unknown role "Nurse". -/
theorem navigate_terminates_witness :
    getDefaultPage "Nurse" = "reception"
    ∧ navigate 2 (some "Nurse") "admin" = NavResult.noRender :=
  (navigate_terminates "Nurse" "admin").2.2 (by decide)

/-! ## Claim theorems: patient login -/

/-- C4 counterexample: the comparison at app.js line 398 upper-cases the
entered passcode before comparing, so for the mock patient (phone
"0599123456", name "Ahmed Khaled") the passcode "ahm0599123456" — which
is not equal to the documented passcode "AHM0599123456" — also logs in
successfully, contradicting the claimed "succeeds if and only if the
entered passcode equals" and "any other entered passcode fails". -/
theorem patientLogin_case_cx :
    patientLogin [⟨"PT-101", "Ahmed Khaled", "0599123456"⟩] "0599123456" "ahm0599123456"
      = LoginResult.success ⟨"PT-101", "Ahmed Khaled", "Patient", "0599123456"⟩
    ∧ "ahm0599123456" ≠ "AHM0599123456" := by
  decide

/-- C4 amended: for a patient found by exact phone match and a non-empty
entered passcode, login succeeds exactly when the upper-cased entered
passcode equals the upper-cased first three letters of the patient's
full name concatenated with the phone number; otherwise the attempt
reports an invalid passcode and `App.state.user` is left unchanged. -/
theorem patientLogin_spec (patients : List Patient) (phoneRaw passRaw : String) (p : Patient)
    (hphone : jsTrim phoneRaw ≠ "")
    (hpass : jsTrim passRaw ≠ "")
    (hfind : patients.find? (fun q => q.phone == jsTrim phoneRaw) = some p) :
    (patientLogin patients phoneRaw passRaw
        = LoginResult.success ⟨p.id, p.full_name, "Patient", p.phone⟩
      ↔ jsToUpper (jsTrim passRaw) = jsToUpper (p.full_name.take 3) ++ jsTrim phoneRaw)
    ∧ (jsToUpper (jsTrim passRaw) ≠ jsToUpper (p.full_name.take 3) ++ jsTrim phoneRaw →
        patientLogin patients phoneRaw passRaw = LoginResult.invalidPasscode
        ∧ ∀ prev, userAfterLogin prev (patientLogin patients phoneRaw passRaw) = prev) := by
  have hred : patientLogin patients phoneRaw passRaw =
      if jsToUpper (jsTrim passRaw) = jsToUpper (p.full_name.take 3) ++ jsTrim phoneRaw then
        LoginResult.success ⟨p.id, p.full_name, "Patient", p.phone⟩
      else LoginResult.invalidPasscode := by
    unfold patientLogin
    rw [if_neg (by simp [hphone, hpass]), hfind]
  constructor
  · rw [hred]
    by_cases h : jsToUpper (jsTrim passRaw) = jsToUpper (p.full_name.take 3) ++ jsTrim phoneRaw
    · simp [h]
    · simp only [h, if_false, iff_false]
      intro hcon
      exact LoginResult.noConfusion hcon
  · intro h
    rw [hred, if_neg h]
    exact ⟨rfl, fun prev => rfl⟩

/-- Witness for C4: the documented passcode "AHM0599123456" succeeds for
the mock patient, and the wrong passcode "AHX0599123456" is rejected
without touching the session. -/
theorem patientLogin_spec_witness :
    patientLogin [⟨"PT-101", "Ahmed Khaled", "0599123456"⟩] "0599123456" "AHM0599123456"
      = LoginResult.success ⟨"PT-101", "Ahmed Khaled", "Patient", "0599123456"⟩
    ∧ patientLogin [⟨"PT-101", "Ahmed Khaled", "0599123456"⟩] "0599123456" "AHX0599123456"
      = LoginResult.invalidPasscode := by
  constructor
  · exact (patientLogin_spec [⟨"PT-101", "Ahmed Khaled", "0599123456"⟩] "0599123456"
      "AHM0599123456" ⟨"PT-101", "Ahmed Khaled", "0599123456"⟩ (by decide) (by decide)
      (by decide)).1.mpr (by decide)
  · exact ((patientLogin_spec [⟨"PT-101", "Ahmed Khaled", "0599123456"⟩] "0599123456"
      "AHX0599123456" ⟨"PT-101", "Ahmed Khaled", "0599123456"⟩ (by decide) (by decide)
      (by decide)).2 (by decide)).1

/-! ## Claim theorems: study workflow -/

/-- From a non-empty action sequence the resulting status is the one
written by the last action, and no action ever writes "Waiting". -/
theorem runActions_ne_waiting :
    ∀ (acts : List Action) (s : StudyState), acts ≠ [] →
      (runActions acts s).status ≠ "Waiting" := by
  intro acts
  induction acts with
  | nil => intro s h; exact absurd rfl h
  | cons a rest ih =>
    intro s _
    cases rest with
    | nil =>
      show (applyAction a s).status ≠ "Waiting"
      cases a <;> simp [applyAction, actionStatus]
    | cons b r =>
      exact ih (applyAction a s) (by simp)

/-- C1 counterexample: for the assigned radiologist a Completed study is
listed in the completed tab and its editor still renders the Sign and
Print button (app.js line 1566), and the resulting `saveReport` write
stores status "Reported" (Code.gs lines 124-129) — a backward move from
Completed, contradicting "no action moves a status backward". -/
theorem study_backward_cx :
    exposed "Radiologist" "USR-7" ⟨"Completed", "USR-7"⟩ Action.signAndPrint = true
    ∧ (applyAction Action.signAndPrint ⟨"Completed", "USR-7"⟩).status = "Reported"
    ∧ statusRank "Reported" < statusRank "Completed" := by
  decide

/-- C1 amended: every exposed action moves the study status along
Waiting to Scanning, Scanning to Reporting, Reporting to Reported or
Completed, or Reported to Completed (or re-signs a Reported study),
except that Sign and Print on a Completed study moves the status back to
Reported; no exposed action ever writes "Waiting", so no sequence of
exposed actions moves any study (in particular a Completed one) back to
Waiting. -/
theorem study_status_machine :
    (∀ (role uid : String) (s : StudyState) (a : Action),
        exposed role uid s a = true →
          ((s.status = "Waiting" ∧ actionStatus a = "Scanning")
          ∨ (s.status = "Scanning" ∧ actionStatus a = "Reporting")
          ∨ (s.status = "Reporting" ∧ (actionStatus a = "Reported" ∨ actionStatus a = "Completed"))
          ∨ (s.status = "Reported" ∧ (actionStatus a = "Completed" ∨ actionStatus a = "Reported"))
          ∨ (s.status = "Completed" ∧ a = Action.signAndPrint ∧ actionStatus a = "Reported"))
          ∧ (applyAction a s).status ≠ "Waiting")
    ∧ (∀ (s : StudyState) (acts : List Action), acts ≠ [] →
        (runActions acts s).status ≠ "Waiting") := by
  constructor
  · intro role uid s a h
    refine ⟨?_, by cases a <;> simp [applyAction, actionStatus]⟩
    cases a with
    | startScan =>
      simp only [exposed, Bool.and_eq_true, beq_iff_eq] at h
      exact Or.inl ⟨h.2, rfl⟩
    | completeScan =>
      simp only [exposed, Bool.and_eq_true, beq_iff_eq] at h
      exact Or.inr (Or.inl ⟨h.2, rfl⟩)
    | markComplete =>
      simp only [exposed, radiologistListed, Bool.and_eq_true, Bool.or_eq_true, beq_iff_eq,
        Bool.not_eq_true', beq_eq_false_iff_ne, ne_eq] at h
      rcases h.1.1.2 with (h1 | h1) | h1
      · exact Or.inr (Or.inr (Or.inl ⟨h1, Or.inr rfl⟩))
      · exact Or.inr (Or.inr (Or.inr (Or.inl ⟨h1, Or.inl rfl⟩)))
      · exact absurd h1 h.2
    | signAndPrint =>
      simp only [exposed, radiologistListed, Bool.and_eq_true, Bool.or_eq_true, beq_iff_eq] at h
      rcases h.1 with (h1 | h1) | h1
      · exact Or.inr (Or.inr (Or.inl ⟨h1, Or.inl rfl⟩))
      · exact Or.inr (Or.inr (Or.inr (Or.inl ⟨h1, Or.inr rfl⟩)))
      · exact Or.inr (Or.inr (Or.inr (Or.inr ⟨h1, rfl, rfl⟩)))
  · exact fun s acts h => runActions_ne_waiting acts s h

/-- Witness for C1: a Waiting study under an exposed start-scan action,
and a one-action sequence. -/
theorem study_status_machine_witness :
    (applyAction Action.startScan ⟨"Waiting", "USR-1"⟩).status ≠ "Waiting"
    ∧ (runActions [Action.startScan] ⟨"Waiting", "USR-1"⟩).status ≠ "Waiting" :=
  ⟨(study_status_machine.1 "Technician" "USR-1" ⟨"Waiting", "USR-1"⟩ Action.startScan
      (by decide)).2,
   study_status_machine.2 ⟨"Waiting", "USR-1"⟩ [Action.startScan] (by decide)⟩

/-! ## Claim theorems: backend row store -/

/-- C6: with no id and no creation timestamp in the payload, `createRow`
assigns the id `prefix + "-" + rand`, returns it in a success response,
and appends exactly one row whose cells follow the header order: the id
and timestamp columns receive the generated values, a header field
present in the payload is stored as given, and a header field absent from
the payload is stored as the empty string. -/
theorem createRow_spec (sheet : Sheet) (data : Payload) (pfx : String) (rand : Nat)
    (nowTs : String) (hid : data "id" = none) (hts : data "created_at" = none) :
    (createRow sheet data pfx rand nowTs).2
      = { status := "success", message := none,
          dataId := some (pfx ++ "-" ++ Nat.repr rand) }
    ∧ (createRow sheet data pfx rand nowTs).1.headers = sheet.headers
    ∧ ∃ row, (createRow sheet data pfx rand nowTs).1.rows = sheet.rows ++ [row]
        ∧ row.length = sheet.headers.length
        ∧ ∀ (c : Nat) (h : String), sheet.headers[c]? = some h →
            (h = "id" → row[c]? = some (pfx ++ "-" ++ Nat.repr rand))
            ∧ (h = "created_at" → row[c]? = some nowTs)
            ∧ (h ≠ "id" → h ≠ "created_at" → data h = none → row[c]? = some "")
            ∧ (∀ v, h ≠ "id" → h ≠ "created_at" → data h = some v → row[c]? = some v) := by
  have hfalse : truthy (data "id") = false := by rw [hid]; rfl
  have hfalse2 : truthy (data "created_at") = false := by rw [hts]; rfl
  refine ⟨by simp [createRow, hfalse, hfalse2], rfl, ?_⟩
  refine ⟨_, rfl, by simp [createRow], ?_⟩
  intro c h hc
  have hrow : ∀ g : String → String,
      (sheet.headers.map g)[c]? = some (g h) := by
    intro g
    rw [List.getElem?_map, hc]
    rfl
  refine ⟨?_, ?_, ?_, ?_⟩
  · intro he
    have := hrow fun x =>
      ((if x = "id" then
          some (if truthy (data "id") then (data "id").getD "" else pfx ++ "-" ++ Nat.repr rand)
        else if x = "created_at" then
          (if truthy (data "created_at") then data x else some nowTs)
        else data x).getD "")
    simp only [createRow]
    rw [this]
    simp [he, hfalse]
  · intro he
    have := hrow fun x =>
      ((if x = "id" then
          some (if truthy (data "id") then (data "id").getD "" else pfx ++ "-" ++ Nat.repr rand)
        else if x = "created_at" then
          (if truthy (data "created_at") then data x else some nowTs)
        else data x).getD "")
    simp only [createRow]
    rw [this]
    simp [he, hfalse2]
  · intro h1 h2 h3
    have := hrow fun x =>
      ((if x = "id" then
          some (if truthy (data "id") then (data "id").getD "" else pfx ++ "-" ++ Nat.repr rand)
        else if x = "created_at" then
          (if truthy (data "created_at") then data x else some nowTs)
        else data x).getD "")
    simp only [createRow]
    rw [this]
    simp [h1, h2, h3]
  · intro v h1 h2 h3
    have := hrow fun x =>
      ((if x = "id" then
          some (if truthy (data "id") then (data "id").getD "" else pfx ++ "-" ++ Nat.repr rand)
        else if x = "created_at" then
          (if truthy (data "created_at") then data x else some nowTs)
        else data x).getD "")
    simp only [createRow]
    rw [this]
    simp [h1, h2, h3]

/-- Witness for C6 on a one-column-payload create against a small
sheet. -/
theorem createRow_spec_witness :
    (createRow ⟨["id", "full_name", "created_at"], []⟩
        (fun k => if k = "full_name" then some "Bob" else none) "PT" 42 "T1").2
      = { status := "success", message := none,
          dataId := some ("PT" ++ "-" ++ Nat.repr 42) } :=
  (createRow_spec ⟨["id", "full_name", "created_at"], []⟩
    (fun k => if k = "full_name" then some "Bob" else none) "PT" 42 "T1"
    (by decide) (by decide)).1

/-- A header index returned by `headerIndex` really carries that header
name. -/
theorem headerIndex_some {headers : List String} {k : String} {c : Nat}
    (h : headerIndex headers k = some c) : headers[c]? = some k := by
  unfold headerIndex at h
  obtain ⟨hlt, hp, -⟩ := List.findIdx?_eq_some_iff_getElem.mp h
  rw [List.getElem?_eq_getElem hlt]
  exact congrArg some (beq_iff_eq.mp hp)

/-- Columns whose header name is hit by no update key survive the whole
update fold unchanged. -/
theorem foldl_setField_frame (headers : List String) (updates : List (String × String))
    (row : List String) (c : Nat)
    (h : ∀ kv ∈ updates, headerIndex headers kv.1 ≠ some c) :
    (updates.foldl (setField headers) row)[c]? = row[c]? := by
  induction updates generalizing row with
  | nil => rfl
  | cons kv rest ih =>
    rw [List.foldl_cons, ih _ fun kv2 hm => h kv2 (List.mem_cons_of_mem kv hm)]
    unfold setField
    cases hidx : headerIndex headers kv.1 with
    | none => rfl
    | some c2 =>
      have hne : c2 ≠ c := fun e => h kv (List.mem_cons_self _ _) (by rw [hidx, e])
      exact List.getElem?_set_ne hne

/-- C7: when some data row's first column equals the id, `updateRow`
succeeds and mutates only that row, and inside it only the columns whose
header name occurs among the update keys; every other row and every
unnamed column keeps its previous value. -/
theorem updateRow_frame (sheet : Sheet) (id : String) (updates : List (String × String))
    (j : Nat) (hj : findRowIdx sheet.rows id = some j) :
    (updateRow sheet id updates).2 = okResponse
    ∧ (updateRow sheet id updates).1.headers = sheet.headers
    ∧ (updateRow sheet id updates).1.rows.length = sheet.rows.length
    ∧ (∀ k, k ≠ j → (updateRow sheet id updates).1.rows[k]? = sheet.rows[k]?)
    ∧ ∀ (c : Nat) (h : String), sheet.headers[c]? = some h → (∀ kv ∈ updates, kv.1 ≠ h) →
        ((updateRow sheet id updates).1.rows.getD j [])[c]?
          = (sheet.rows.getD j [])[c]? := by
  have hred : updateRow sheet id updates
      = (⟨sheet.headers, sheet.rows.set j
            (updates.foldl (setField sheet.headers) (sheet.rows.getD j []))⟩, okResponse) := by
    unfold updateRow
    rw [hj]
  have hjlt : j < sheet.rows.length := by
    unfold findRowIdx at hj
    exact (List.findIdx?_eq_some_iff_getElem.mp hj).1
  refine ⟨by rw [hred], by rw [hred], by rw [hred]; exact List.length_set .., ?_, ?_⟩
  · intro k hk
    rw [hred]
    exact List.getElem?_set_ne fun e => hk e.symm
  · intro c h hc hku
    rw [hred]
    have hget : (sheet.rows.set j
        (updates.foldl (setField sheet.headers) (sheet.rows.getD j []))).getD j []
        = updates.foldl (setField sheet.headers) (sheet.rows.getD j []) := by
      unfold List.getD
      rw [List.get?_eq_getElem?, List.getElem?_set_self (by simpa using hjlt)]
      rfl
    rw [hget]
    refine foldl_setField_frame sheet.headers updates _ c fun kv hm hcon => ?_
    have := headerIndex_some hcon
    rw [hc] at this
    exact hku kv hm (Option.some.inj this).symm

/-- Witness for C7 on a two-row sheet. -/
theorem updateRow_frame_witness :
    (updateRow ⟨["id", "status"], [["ST-1", "W"], ["ST-2", "S"]]⟩ "ST-2"
        [("status", "Reporting")]).2 = okResponse :=
  (updateRow_frame ⟨["id", "status"], [["ST-1", "W"], ["ST-2", "S"]]⟩ "ST-2"
    [("status", "Reporting")] 1 (by decide)).1

/-- C8: `updateRow` and `deleteRow` answer with exactly
`status = "error", message = "ID not found"` precisely when no data row's
first column equals the id; in that case the sheet is untouched, and
whenever a matching row exists the response is the plain success
object. -/
theorem rowStore_not_found (sheet : Sheet) (id : String) (updates : List (String × String)) :
    ((updateRow sheet id updates).2 = notFoundResponse
      ↔ ∀ r ∈ sheet.rows, r.headD "" ≠ id)
    ∧ ((updateRow sheet id updates).2 = notFoundResponse
        → (updateRow sheet id updates).1 = sheet)
    ∧ ((updateRow sheet id updates).2 ≠ notFoundResponse
        → (updateRow sheet id updates).2 = okResponse)
    ∧ ((deleteRow sheet id).2 = notFoundResponse ↔ ∀ r ∈ sheet.rows, r.headD "" ≠ id)
    ∧ ((deleteRow sheet id).2 = notFoundResponse → (deleteRow sheet id).1 = sheet)
    ∧ ((deleteRow sheet id).2 ≠ notFoundResponse → (deleteRow sheet id).2 = okResponse) := by
  have hnone : findRowIdx sheet.rows id = none ↔ ∀ r ∈ sheet.rows, r.headD "" ≠ id := by
    unfold findRowIdx
    rw [List.findIdx?_eq_none_iff]
    constructor
    · intro h r hr
      simpa using h r hr
    · intro h r hr
      simpa using h r hr
  cases hfind : findRowIdx sheet.rows id with
  | none =>
    have hmiss := hnone.mp hfind
    have hu : updateRow sheet id updates = (sheet, notFoundResponse) := by
      unfold updateRow
      rw [hfind]
    have hd : deleteRow sheet id = (sheet, notFoundResponse) := by
      unfold deleteRow
      rw [hfind]
    rw [hu, hd]
    exact ⟨iff_of_true rfl hmiss, fun _ => rfl, fun hcon => absurd rfl hcon,
      iff_of_true rfl hmiss, fun _ => rfl, fun hcon => absurd rfl hcon⟩
  | some j =>
    have hhit : ¬∀ r ∈ sheet.rows, r.headD "" ≠ id := fun hcon =>
      Option.noConfusion (hnone.mpr hcon ▸ hfind)
    have hu : (updateRow sheet id updates).2 = okResponse := by
      unfold updateRow
      rw [hfind]
    have hd : (deleteRow sheet id).2 = okResponse := by
      unfold deleteRow
      rw [hfind]
    have hne : okResponse ≠ notFoundResponse := by decide
    rw [hu, hd]
    exact ⟨iff_of_false hne hhit, fun hcon => absurd hcon hne, fun _ => rfl,
      iff_of_false hne hhit, fun hcon => absurd hcon hne, fun _ => rfl⟩

/-- Witness for C8: a missing id yields the structured error, a present
id the success response. -/
theorem rowStore_not_found_witness :
    ((updateRow ⟨["id", "status"], [["ST-1", "W"]]⟩ "ST-9" [("status", "X")]).2
        = notFoundResponse
      ↔ ∀ r ∈ [["ST-1", "W"]], List.headD r "" ≠ "ST-9") :=
  (rowStore_not_found ⟨["id", "status"], [["ST-1", "W"]]⟩ "ST-9" [("status", "X")]).1

/-! ## Round-trip lemmas for `getSheetData` -/

/-- `lookupLast` finds nothing when no pair carries the key. -/
theorem lookupLast_none {l : List (String × String)} {k : String}
    (h : ∀ pr ∈ l, pr.1 ≠ k) : lookupLast l k = none := by
  induction l with
  | nil => rfl
  | cons hd tl ih =>
    obtain ⟨h1, v1⟩ := hd
    unfold lookupLast
    rw [ih fun pr hm => h pr (List.mem_cons_of_mem _ hm)]
    exact if_neg (h (h1, v1) (List.mem_cons_self _ _))

/-- When the key occurs in exactly one header cell, the object read of
that key returns the row cell in that column. -/
theorem lookupLast_zip_unique :
    ∀ (headers row : List String) (k : String) (c : Nat) (v : String),
      headers.count k = 1 → headers[c]? = some k → row[c]? = some v →
      row.length = headers.length → lookupLast (headers.zip row) k = some v := by
  intro headers
  induction headers with
  | nil => intro row k c v _ hc; simp at hc
  | cons h0 hs ih =>
    intro row k c v hcount hc hv hlen
    cases row with
    | nil => simp at hlen
    | cons r0 rs =>
      show lookupLast ((h0, r0) :: hs.zip rs) k = some v
      cases c with
      | zero =>
        have hk0 : h0 = k := by simpa using hc
        have hv0 : r0 = v := by simpa using hv
        have hcnt : hs.count k = 0 := by
          rw [List.count_cons, if_pos (beq_iff_eq.mpr hk0)] at hcount
          omega
        have hnot : k ∉ hs := List.count_eq_zero.mp hcnt
        have hz : lookupLast (hs.zip rs) k = none := by
          refine lookupLast_none fun pr hpr => ?_
          obtain ⟨a, b⟩ := pr
          exact fun e => hnot (e ▸ (List.of_mem_zip hpr).1)
        unfold lookupLast
        rw [hz]
        show (if h0 = k then some r0 else none) = some v
        rw [if_pos hk0, hv0]
      | succ c2 =>
        have hc2 : hs[c2]? = some k := by simpa using hc
        have hkhs : k ∈ hs := List.mem_iff_getElem?.mpr ⟨c2, hc2⟩
        have h0ne : (h0 == k) = false := by
          rw [beq_eq_false_iff_ne]
          intro e
          rw [List.count_cons, if_pos (beq_iff_eq.mpr e)] at hcount
          have : hs.count k ≠ 0 := fun hz => (List.count_eq_zero.mp hz) hkhs
          omega
        have hcount2 : hs.count k = 1 := by
          rw [List.count_cons, h0ne] at hcount
          simpa using hcount
        have := ih rs k c2 v hcount2 hc2 (by simpa using hv) (by simpa using hlen)
        unfold lookupLast
        rw [this]

/-- The `getSheetData` object of a row reads, for a header name occurring
exactly once, precisely the cell of its column. -/
theorem rowObject_unique (headers row : List String) (k : String) (c : Nat) (v : String)
    (hcount : headers.count k = 1) (hc : headers[c]? = some k) (hv : row[c]? = some v)
    (hlen : row.length = headers.length) :
    rowObject headers row k = some v := by
  unfold rowObject
  rw [hlen, Nat.sub_self]
  rw [show List.replicate 0 "" = ([] : List String) from rfl, List.append_nil]
  exact lookupLast_zip_unique headers row k c v hcount hc hv hlen

/-- A row as long as a non-empty header list exposes its first cell both
as `headD` and as `getElem?` at index zero. -/
theorem row_first_cell {row : List String} {n : Nat} (hlen : row.length = n + 1) :
    row[0]? = some (row.headD "") := by
  cases row with
  | nil => simp at hlen
  | cons x xs => simp

/-- C9: on a Studies sheet whose headers start with a unique "id" column
and contain exactly one "status" column, with exactly one (rectangular)
data row whose first cell equals the id, dispatching
`updateStudyStatus(id, "Scanning")` and then reading the sheet back
yields a collection in which the object carrying that id reports status
"Scanning" — and every object carrying that id does. -/
theorem updateStudyStatus_roundtrip (sheet : Sheet) (id : String) (j c : Nat)
    (hid0 : sheet.headers[0]? = some "id")
    (hidcount : sheet.headers.count "id" = 1)
    (hstatus : headerIndex sheet.headers "status" = some c)
    (hstatuscount : sheet.headers.count "status" = 1)
    (hj : findRowIdx sheet.rows id = some j)
    (huniq : ∀ (k : Nat) (r : List String), sheet.rows[k]? = some r → r.headD "" = id → k = j)
    (hrect : ∀ r ∈ sheet.rows, r.length = sheet.headers.length) :
    (∃ obj ∈ getSheetData (updateStudyStatus sheet id "Scanning").1,
        obj "id" = some id ∧ obj "status" = some "Scanning")
    ∧ ∀ obj ∈ getSheetData (updateStudyStatus sheet id "Scanning").1,
        obj "id" = some id → obj "status" = some "Scanning" := by
  obtain ⟨hjlt, hpred, -⟩ := List.findIdx?_eq_some_iff_getElem.mp hj
  have hcol : sheet.headers[c]? = some "status" := headerIndex_some hstatus
  have hclt : c < sheet.headers.length := (List.getElem?_eq_some_iff.mp hcol).1
  have hhlen : 0 < sheet.headers.length := (List.getElem?_eq_some_iff.mp hid0).1
  have hc0 : c ≠ 0 := by
    intro e
    rw [e, hid0] at hcol
    exact absurd (Option.some.inj hcol) (by decide)
  have hr0 : sheet.rows[j]? = some sheet.rows[j] := List.getElem?_eq_getElem hjlt
  have hr0D : sheet.rows.getD j [] = sheet.rows[j] := by
    unfold List.getD
    rw [List.get?_eq_getElem?, hr0]
    rfl
  have hr0len : sheet.rows[j].length = sheet.headers.length :=
    hrect _ (List.getElem_mem hjlt)
  have hr0head : (sheet.rows[j]).headD "" = id := beq_iff_eq.mp hpred
  have hred : (updateStudyStatus sheet id "Scanning").1
      = ⟨sheet.headers, sheet.rows.set j (sheet.rows[j].set c "Scanning")⟩ := by
    unfold updateStudyStatus updateRow
    rw [hj]
    simp only [List.foldl_cons, List.foldl_nil]
    unfold setField
    rw [hstatus, hr0D]
  have hnewlen : (sheet.rows[j].set c "Scanning").length = sheet.headers.length := by
    rw [List.length_set]
    exact hr0len
  have hnew_c : (sheet.rows[j].set c "Scanning")[c]? = some "Scanning" :=
    List.getElem?_set_self (by rw [hr0len]; exact hclt)
  have hnew_0 : (sheet.rows[j].set c "Scanning")[0]? = some id := by
    rw [List.getElem?_set_ne hc0]
    obtain ⟨m, hm⟩ := Nat.exists_eq_add_of_lt (hr0len ▸ hhlen)
    rw [row_first_cell (by omega : sheet.rows[j].length = m + 1), hr0head]
  have hobj_status : rowObject sheet.headers (sheet.rows[j].set c "Scanning") "status"
      = some "Scanning" :=
    rowObject_unique _ _ _ c _ hstatuscount hcol hnew_c hnewlen
  have hobj_id : rowObject sheet.headers (sheet.rows[j].set c "Scanning") "id" = some id :=
    rowObject_unique _ _ _ 0 _ hidcount hid0 hnew_0 hnewlen
  constructor
  · refine ⟨rowObject sheet.headers (sheet.rows[j].set c "Scanning"), ?_, hobj_id, hobj_status⟩
    rw [hred]
    unfold getSheetData
    refine List.mem_map_of_mem _ ?_
    show sheet.rows[j].set c "Scanning" ∈ sheet.rows.set j (sheet.rows[j].set c "Scanning")
    exact List.mem_iff_getElem?.mpr ⟨j, List.getElem?_set_self hjlt⟩
  · intro obj hobj hobjid
    rw [hred] at hobj
    unfold getSheetData at hobj
    obtain ⟨r, hrmem, rfl⟩ := List.mem_map.mp hobj
    obtain ⟨k, hk, hkr⟩ := List.mem_iff_getElem.mp hrmem
    by_cases hkj : k = j
    · subst hkj
      have : r = sheet.rows[k].set c "Scanning" := by
        rw [← hkr]
        exact List.getElem_set_self _
      rw [this]
      exact hobj_status
    · have hrk : sheet.rows[k]? = some r := by
        have hkl : k < sheet.rows.length := by simpa using hk
        have := List.getElem?_set_ne (fun e => hkj e.symm)
          (l := sheet.rows) (a := sheet.rows[j].set c "Scanning") (i := j) (j := k)
        rw [← this, List.getElem?_eq_getElem (by simpa using hk), hkr]
      have hrlen : r.length = sheet.headers.length :=
        hrect r (List.mem_iff_getElem?.mpr ⟨k, hrk⟩)
      obtain ⟨m, hm⟩ := Nat.exists_eq_add_of_lt (hrlen ▸ hhlen)
      have hrid : rowObject sheet.headers r "id" = some (r.headD "") :=
        rowObject_unique _ _ _ 0 _ hidcount hid0
          (row_first_cell (by omega : r.length = m + 1)) hrlen
      rw [hrid] at hobjid
      exact absurd (huniq k r hrk (Option.some.inj hobjid)) hkj

/-- Witness for C9 on a one-row Studies sheet. -/
theorem updateStudyStatus_roundtrip_witness :
    ∃ obj ∈ getSheetData (updateStudyStatus ⟨["id", "status"], [["ST-1", "Waiting"]]⟩
        "ST-1" "Scanning").1,
      obj "id" = some "ST-1" ∧ obj "status" = some "Scanning" :=
  (updateStudyStatus_roundtrip ⟨["id", "status"], [["ST-1", "Waiting"]]⟩ "ST-1" 0 1
    (by decide) (by decide) (by decide) (by decide) (by decide)
    (by
      intro k r hk hhead
      match k with
      | 0 => rfl
      | n + 1 => simp at hk)
    (by
      intro r hr
      simp at hr
      rw [hr]
      rfl)).1

/-! ## Decimal-representation lemmas for the generated IDs

`generateId` builds `prefix-Date.now()-rand`; to reason about collisions
we need that the decimal digits of a natural number contain no dash and
determine the number. -/

/-- No decimal digit character is the dash. -/
theorem digitChar_ne_dash : ∀ n < 10, Nat.digitChar n ≠ '-' := by decide

/-- The decimal digit characters are pairwise distinct. -/
theorem digitChar_injOn : ∀ m < 10, ∀ n < 10, Nat.digitChar m = Nat.digitChar n → m = n := by
  decide

/-- One unfolding step of the core digit loop at base ten. -/
theorem toDigitsCore_ten_succ (f n : Nat) (ds : List Char) :
    Nat.toDigitsCore 10 (f + 1) n ds =
      if n / 10 = 0 then Nat.digitChar (n % 10) :: ds
      else Nat.toDigitsCore 10 f (n / 10) (Nat.digitChar (n % 10) :: ds) := rfl

/-- The digit loop only ever emits digit characters on top of its
accumulator, so no dash appears. -/
theorem toDigitsCore_dashfree :
    ∀ (f n : Nat) (ds : List Char), (∀ c ∈ ds, c ≠ '-') →
      ∀ c ∈ Nat.toDigitsCore 10 f n ds, c ≠ '-' := by
  intro f
  induction f with
  | zero => intro n ds h c hc; exact h c hc
  | succ f ih =>
    intro n ds h c hc
    rw [toDigitsCore_ten_succ] at hc
    have hds : ∀ x ∈ Nat.digitChar (n % 10) :: ds, x ≠ '-' := by
      intro x hx
      rcases List.mem_cons.mp hx with rfl | hx
      · exact digitChar_ne_dash (n % 10) (Nat.mod_lt n (by norm_num))
      · exact h x hx
    by_cases h0 : n / 10 = 0
    · rw [if_pos h0] at hc
      exact hds c hc
    · rw [if_neg h0] at hc
      exact ih (n / 10) (Nat.digitChar (n % 10) :: ds) hds c hc

/-- The decimal string of a natural number contains no dash. -/
theorem repr_data_dashfree (n : Nat) : ∀ c ∈ (Nat.repr n).data, c ≠ '-' := by
  intro c hc
  have he : (Nat.repr n).data = Nat.toDigitsCore 10 (n + 1) n [] := rfl
  rw [he] at hc
  exact toDigitsCore_dashfree (n + 1) n [] (by intro x hx; simp at hx) c hc

/-- With enough fuel the digit loop produces exactly the reversed
Mathlib digit list, mapped to characters. -/
theorem toDigitsCore_eq_digits (f : Nat) :
    ∀ (n : Nat) (ds : List Char), 0 < n → n < 10 ^ f →
      Nat.toDigitsCore 10 f n ds = ((Nat.digits 10 n).reverse.map Nat.digitChar) ++ ds := by
  induction f with
  | zero =>
    intro n ds h1 h2
    simp at h2
    omega
  | succ f ih =>
    intro n ds h1 h2
    rw [toDigitsCore_ten_succ]
    by_cases h0 : n / 10 = 0
    · have hlt : n < 10 := by omega
      rw [if_pos h0, Nat.digits_def' (by norm_num : (1 : ℕ) < 10) h1]
      have hz : Nat.digits 10 (n / 10) = [] := by rw [h0]; exact Nat.digits_zero 10
      rw [hz]
      simp [Nat.mod_eq_of_lt hlt]
    · rw [if_neg h0]
      have hpos : 0 < n / 10 := Nat.pos_of_ne_zero h0
      have hbound : n / 10 < 10 ^ f := by
        have h2' : n < 10 ^ f * 10 := by
          rw [← pow_succ]
          exact h2
        exact (Nat.div_lt_iff_lt_mul (by norm_num)).mpr h2'
      rw [ih (n / 10) _ hpos hbound, Nat.digits_def' (by norm_num : (1 : ℕ) < 10) h1]
      simp [List.append_assoc]

/-- The decimal string of a positive number is its digit list reversed
and rendered. -/
theorem repr_eq_digits (n : Nat) (h : 0 < n) :
    (Nat.repr n).data = (Nat.digits 10 n).reverse.map Nat.digitChar := by
  have hb : n < 10 ^ (n + 1) :=
    lt_of_lt_of_le (Nat.lt_pow_self (by norm_num) n)
      (Nat.pow_le_pow_right (by norm_num) (Nat.le_succ n))
  have he : (Nat.repr n).data = Nat.toDigitsCore 10 (n + 1) n [] := rfl
  rw [he, toDigitsCore_eq_digits (n + 1) n [] h hb, List.append_nil]

/-- Mapping bounded digits through `digitChar` is injective. -/
theorem map_digitChar_inj :
    ∀ (l1 l2 : List Nat), (∀ x ∈ l1, x < 10) → (∀ x ∈ l2, x < 10) →
      l1.map Nat.digitChar = l2.map Nat.digitChar → l1 = l2 := by
  intro l1
  induction l1 with
  | nil =>
    intro l2 _ _ h
    cases l2 with
    | nil => rfl
    | cons b m => simp at h
  | cons a l ih =>
    intro l2 h1 h2 h
    cases l2 with
    | nil => simp at h
    | cons b m =>
      simp only [List.map_cons, List.cons.injEq] at h
      have hab : a = b :=
        digitChar_injOn a (h1 a (List.mem_cons_self _ _)) b (h2 b (List.mem_cons_self _ _)) h.1
      rw [hab, ih m (fun x hx => h1 x (List.mem_cons_of_mem _ hx))
        (fun x hx => h2 x (List.mem_cons_of_mem _ hx)) h.2]

/-- No positive number shares its decimal string with zero. -/
theorem repr_pos_ne_zero (n : Nat) (hn : 0 < n) : Nat.repr n ≠ Nat.repr 0 := by
  intro h
  have hd := congrArg String.data h
  rw [repr_eq_digits n hn] at hd
  have h0 : (Nat.repr 0).data = ['0'] := rfl
  rw [h0] at hd
  cases hrev : (Nat.digits 10 n).reverse with
  | nil =>
    rw [hrev] at hd
    simp at hd
  | cons d ds =>
    rw [hrev] at hd
    simp only [List.map_cons, List.cons.injEq] at hd
    have hds : ds = [] := by
      have h2 := hd.2
      simpa using h2
    have hdmem : d ∈ Nat.digits 10 n :=
      List.mem_reverse.mp (by rw [hrev]; exact List.mem_cons_self _ _)
    have hdlt : d < 10 := Nat.digits_lt_base (by norm_num) hdmem
    have hd0 : d = 0 := by
      refine digitChar_injOn d hdlt 0 (by norm_num) ?_
      show Nat.digitChar d = '0'
      exact hd.1
    have hdig : Nat.digits 10 n = [0] := by
      have hr := congrArg List.reverse hrev
      rw [List.reverse_reverse] at hr
      rw [hr, hds, hd0]
      rfl
    have hval := Nat.ofDigits_digits 10 n
    rw [hdig] at hval
    simp [Nat.ofDigits] at hval
    omega

/-- Decimal representation determines the number. -/
theorem repr_injective : Function.Injective Nat.repr := by
  intro m n h
  rcases Nat.eq_zero_or_pos m with rfl | hm
  · rcases Nat.eq_zero_or_pos n with rfl | hn
    · rfl
    · exact absurd h.symm (repr_pos_ne_zero n hn)
  · rcases Nat.eq_zero_or_pos n with rfl | hn
    · exact absurd h (repr_pos_ne_zero m hm)
    · have hd := congrArg String.data h
      rw [repr_eq_digits m hm, repr_eq_digits n hn] at hd
      have hrev : (Nat.digits 10 m).reverse = (Nat.digits 10 n).reverse :=
        map_digitChar_inj _ _
          (fun x hx => Nat.digits_lt_base (by norm_num) (List.mem_reverse.mp hx))
          (fun x hx => Nat.digits_lt_base (by norm_num) (List.mem_reverse.mp hx)) hd
      have hdig : Nat.digits 10 m = Nat.digits 10 n := by
        have hr := congrArg List.reverse hrev
        simpa using hr
      exact Nat.digits_inj_iff.mp hdig

/-- Splitting a dash-separated concatenation whose left parts are
dash-free is unambiguous. -/
theorem append_dash_inj : ∀ (a1 a2 b1 b2 : List Char),
    (∀ c ∈ a1, c ≠ '-') → (∀ c ∈ a2, c ≠ '-') →
    a1 ++ '-' :: b1 = a2 ++ '-' :: b2 → a1 = a2 ∧ b1 = b2 := by
  intro a1
  induction a1 with
  | nil =>
    intro a2 b1 b2 _ h2 h
    cases a2 with
    | nil => simpa using h
    | cons y ys =>
      simp only [List.nil_append, List.cons_append, List.cons.injEq] at h
      exact absurd h.1.symm (h2 y (List.mem_cons_self _ _))
  | cons x xs ih =>
    intro a2 b1 b2 h1 h2 h
    cases a2 with
    | nil =>
      simp only [List.nil_append, List.cons_append, List.cons.injEq] at h
      exact absurd h.1 (h1 x (List.mem_cons_self _ _))
    | cons y ys =>
      simp only [List.cons_append, List.cons.injEq] at h
      obtain ⟨rfl, h⟩ := h
      obtain ⟨e1, e2⟩ := ih ys b1 b2 (fun c hc => h1 c (List.mem_cons_of_mem _ hc))
        (fun c hc => h2 c (List.mem_cons_of_mem _ hc)) h
      exact ⟨by rw [e1], e2⟩

/-- The character data of a generated ID, in split form. -/
theorem generateId_data (pfx : String) (t r : Nat) :
    (generateId pfx t r).data
      = pfx.data ++ '-' :: ((Nat.repr t).data ++ '-' :: (Nat.repr r).data) := by
  show (pfx ++ "-" ++ Nat.repr t ++ "-" ++ Nat.repr r).data = _
  simp [String.data_append, List.append_assoc]

/-- Two IDs with the same prefix coincide only for equal clock and
random draws. -/
theorem generateId_inj {pfx : String} {t1 r1 t2 r2 : Nat}
    (h : generateId pfx t1 r1 = generateId pfx t2 r2) : t1 = t2 ∧ r1 = r2 := by
  have hd := congrArg String.data h
  rw [generateId_data, generateId_data] at hd
  have hd2 := List.append_cancel_left hd
  obtain ⟨-, hd3⟩ := List.cons.inj hd2
  obtain ⟨e1, e2⟩ := append_dash_inj _ _ _ _ (repr_data_dashfree t1) (repr_data_dashfree t2) hd3
  exact ⟨repr_injective (String.ext e1), repr_injective (String.ext e2)⟩

/-- A visit ID never equals a study ID: the prefixes already differ. -/
theorem generateId_VS_ST (t1 r1 t2 r2 : Nat) :
    generateId "VS" t1 r1 ≠ generateId "ST" t2 r2 := by
  intro h
  have hd := congrArg String.data h
  rw [generateId_data, generateId_data] at hd
  have hv : ("VS" : String).data = ['V', 'S'] := rfl
  have hs : ("ST" : String).data = ['S', 'T'] := rfl
  rw [hv, hs] at hd
  simp at hd

/-- Mapping a function of the index over a list zipped with its index
range is mapping over the range. -/
theorem zip_range_map (queue : List QueueItem) (f : Nat → String) :
    ((queue.zip (List.range queue.length)).map fun qk => f qk.2)
      = (List.range queue.length).map f := by
  have h1 : ((queue.zip (List.range queue.length)).map fun qk => f qk.2)
      = ((queue.zip (List.range queue.length)).map Prod.snd).map f := by
    rw [List.map_map]
    rfl
  rw [h1, List.map_snd_zip queue _ (by simp)]

/-! ## Claim theorems: optimistic visit creation -/

/-- C5 counterexample: `generateId` concatenates `Date.now()` and a
0-999 random draw, so when the visit and both studies are created within
the same millisecond with a repeated random value — a run the code does
nothing to prevent — the two freshly created studies receive the SAME id
"ST-1000-5", contradicting "distinct from every pre-existing ID and from
each other". -/
theorem saveVisit_duplicate_id_cx :
    (saveVisit (fun _ => (1000, 5)) "Reception" "PT-1" "USR-9" "2026-01-01T09:00" "T0"
        [⟨"US", "Abdomen", "US Abdomen"⟩, ⟨"XR", "Chest", "CXR"⟩] ⟨[], []⟩).studies.map
          (fun s => s.id) = ["ST-1000-5", "ST-1000-5"]
    ∧ ¬ ((saveVisit (fun _ => (1000, 5)) "Reception" "PT-1" "USR-9" "2026-01-01T09:00" "T0"
        [⟨"US", "Abdomen", "US Abdomen"⟩, ⟨"XR", "Chest", "CXR"⟩] ⟨[], []⟩).studies.map
          (fun s => s.id)).Nodup := by
  decide

/-- C5 amended: after `saveVisit` with a selected patient, doctor and a
non-empty queue of N studies — and before any network activity — the
state holds exactly one new visit referencing them and exactly N new
studies, each Waiting and linked to the new visit id; the new ids are
exactly the generator outputs for draws 0..N, and they are pairwise
distinct (visit id included) whenever the clock/random draws are
pairwise distinct, which the code does not itself guarantee. -/
theorem saveVisit_optimistic (env : Nat → Nat × Nat)
    (role patientId doctorId checkIn nowIso : String)
    (queue : List QueueItem) (st : RState)
    (hrole : hasPermission role "createVisit" = true)
    (hp : patientId ≠ "") (hd : doctorId ≠ "") (hq : queue ≠ []) :
    (saveVisit env role patientId doctorId checkIn nowIso queue st).visits
      = st.visits ++ [visitData env patientId doctorId checkIn nowIso]
    ∧ (visitData env patientId doctorId checkIn nowIso).patient_id = patientId
    ∧ (visitData env patientId doctorId checkIn nowIso).assigned_doctor_id = doctorId
    ∧ (saveVisit env role patientId doctorId checkIn nowIso queue st).studies.length
        = st.studies.length + queue.length
    ∧ (∀ s ∈ (saveVisit env role patientId doctorId checkIn nowIso queue st).studies.drop
          st.studies.length,
        s.status = "Waiting" ∧ s.visit_id = (visitData env patientId doctorId checkIn nowIso).id
          ∧ s.assigned_doctor_id = doctorId)
    ∧ (saveVisit env role patientId doctorId checkIn nowIso queue st).studies.map
          (fun s => s.id)
        = st.studies.map (fun s => s.id)
          ++ (List.range queue.length).map
              (fun k => generateId "ST" (env (k + 1)).1 (env (k + 1)).2)
    ∧ ((∀ i1 i2, i1 ≤ queue.length → i2 ≤ queue.length → i1 ≠ i2 → env i1 ≠ env i2) →
        ((visitData env patientId doctorId checkIn nowIso).id
          :: (List.range queue.length).map
              (fun k => generateId "ST" (env (k + 1)).1 (env (k + 1)).2)).Nodup) := by
  have hred : saveVisit env role patientId doctorId checkIn nowIso queue st
      = { visits := st.visits ++ [visitData env patientId doctorId checkIn nowIso],
          studies := st.studies
            ++ (queue.zip (List.range queue.length)).map (studyData env doctorId nowIso) } := by
    unfold saveVisit
    rw [hrole]
    simp only [Bool.not_true, Bool.false_eq_true, if_false]
    rw [if_neg hp, if_neg hd, if_neg hq]
  refine ⟨by rw [hred], rfl, rfl, ?_, ?_, ?_, ?_⟩
  · rw [hred]
    simp [List.length_zip]
  · rw [hred]
    simp only
    rw [List.drop_left]
    intro s hs
    obtain ⟨qk, hqk, rfl⟩ := List.mem_map.mp hs
    exact ⟨rfl, rfl, rfl⟩
  · rw [hred]
    simp only
    rw [List.map_append, List.map_map]
    rw [show ((fun s : Study => s.id) ∘ studyData env doctorId nowIso)
      = fun qk : QueueItem × Nat => generateId "ST" (env (qk.2 + 1)).1 (env (qk.2 + 1)).2
      from rfl]
    rw [zip_range_map queue fun k => generateId "ST" (env (k + 1)).1 (env (k + 1)).2]
  · intro hdist
    rw [List.nodup_cons]
    constructor
    · intro hmem
      obtain ⟨k, hk, he⟩ := List.mem_map.mp hmem
      exact generateId_VS_ST _ _ _ _ he.symm
    · refine List.Nodup.map_on ?_ (List.nodup_range _)
      intro x hx y hy he
      by_contra hne
      obtain ⟨e1, e2⟩ := generateId_inj he
      refine hdist (x + 1) (y + 1) ?_ ?_ (by omega) (Prod.ext e1 e2)
      · have := List.mem_range.mp hx
        omega
      · have := List.mem_range.mp hy
        omega

/-- Witness for C5: one queued study with distinct clock draws yields
distinct fresh ids. -/
theorem saveVisit_optimistic_witness :
    ((visitData (fun k => (1000 + k, k)) "PT-1" "USR-9" "D" "T").id
      :: (List.range ([⟨"US", "Abdomen", "US Abd"⟩] : List QueueItem).length).map
          (fun k => generateId "ST" ((fun k => (1000 + k, k)) (k + 1)).1
            ((fun k => (1000 + k, k)) (k + 1)).2)).Nodup :=
  (saveVisit_optimistic (fun k => (1000 + k, k)) "Reception" "PT-1" "USR-9" "D" "T"
      [⟨"US", "Abdomen", "US Abd"⟩] ⟨[], []⟩ (by decide) (by decide) (by decide)
      (by decide)).2.2.2.2.2.2
    (by
      intro i1 i2 h1 h2 hne hcon
      simp only [Prod.mk.injEq] at hcon
      omega)

end RCA
